import Mathlib

/-!
Verification of the Multi-App RAG Chatbot core: the tenant lifecycle state
machine, the index builder (`app/services/indexing.py`), the storage layer
(`app/services/storage.py`), the metadata store (`app/db.py`), the chat
orchestrator (`app/services/rag.py`), the fallback answer generator
(`app/services/llm.py`) and the upload handler (`app/main.py`).

The Python services are shallowly embedded as pure Lean functions over an
explicit `AppState`. External collaborators (the text splitter, the
embedding model, the Chroma similarity ranking, the OpenAI client, the
SHA-256 digest) are parameters of the operations, bundled in small
environment records; their contracts appear as hypotheses of the theorems
that need them. Timestamps are natural numbers. Python strings are Lean
`String`s; the Python string primitives used by the code (`lower`,
`splitext`, `basename`, `find`, `strip`, slicing, `join`) are re-implemented
over `List Char` so that every definition evaluates inside the kernel.
-/

namespace MultiAppRAG

/-! ## Python string primitives -/

/-- Lowercase a string character by character (Python `str.lower` on the
ASCII names this code handles). -/
def pyLower (s : String) : String := ⟨s.data.map Char.toLower⟩

/-- Index of the last occurrence of `c`. -/
def lastIdxOf (c : Char) : List Char → Option Nat
  | [] => none
  | x :: t =>
    match lastIdxOf c t with
    | some i => some (i + 1)
    | none => if x = c then some 0 else none

/-- `os.path.basename`: the component after the last slash. -/
def basename (p : String) : String :=
  ⟨match lastIdxOf '/' p.data with
   | none => p.data
   | some i => p.data.drop (i + 1)⟩

/-- The extension part of `os.path.splitext`: everything from the last dot of
the final path component, empty when the component has no dot or consists of
leading dots only (Python skips leading dots, so `.bashrc` has no
extension). -/
def fileExtension (p : String) : String :=
  let base := match lastIdxOf '/' p.data with
    | none => p.data
    | some i => p.data.drop (i + 1)
  ⟨match lastIdxOf '.' base with
   | none => []
   | some i => if (base.take i).all (· = '.') then [] else base.drop i⟩

/-- Python whitespace for `str.strip`. -/
def pyIsSpace (c : Char) : Bool :=
  c = ' ' ∨ c = '\t' ∨ c = '\n' ∨ c = '\r' ∨ c = '\x0b' ∨ c = '\x0c'

/-- Python `str.strip()`: drop whitespace from both ends. -/
def pyStrip (l : List Char) : List Char :=
  ((l.dropWhile pyIsSpace).reverse.dropWhile pyIsSpace).reverse

/-- First index where `pat` occurs as a contiguous sublist (Python
`str.find`, as an `Option`). -/
def firstOcc? (pat : List Char) : List Char → Option Nat
  | [] => if pat.isEmpty then some 0 else none
  | c :: s => if pat.isPrefixOf (c :: s) then some 0 else (firstOcc? pat s).map (· + 1)

/-- Python `sep.join(parts)`. -/
def pyJoin (sep : String) : List String → String
  | [] => ""
  | [x] => x
  | x :: y :: t => x ++ sep ++ pyJoin sep (y :: t)

/-! ## Data model

One record per tenant in the metadata store (`apps` table), file records
(`files` table), and per-tenant disk storage: the `files` directory holding
uploaded file contents and the Chroma directory, observable only through its
`chroma.sqlite3` marker file, which exists exactly when a build persisted a
chunk list there. -/

/-- Tenant lifecycle status, the values stored in the `status` column. -/
inductive Status
  | CREATED
  | FILES_UPDATED
  | INDEXING
  | READY
  | FAILED
deriving DecidableEq, Repr

/-- The string stored in the database for a status (used in error
messages). -/
def Status.str : Status → String
  | .CREATED => "CREATED"
  | .FILES_UPDATED => "FILES_UPDATED"
  | .INDEXING => "INDEXING"
  | .READY => "READY"
  | .FAILED => "FAILED"

/-- A row of the `apps` table (identifier is the association key). -/
structure AppRecord where
  name : String
  status : Status
  last_indexed_at : Option Nat
  updated_at : Nat
deriving DecidableEq, Repr

/-- A row of the `files` table. -/
structure FileRec where
  app_id : String
  filename : String
  file_path : String
  file_size : Nat
  file_hash : String
  uploaded_at : Nat
deriving DecidableEq, Repr

/-- A langchain document: page content plus its `source` metadata (the path
the loader read, which `Chroma` persists with each chunk). Chunks are
documents too. -/
structure Doc where
  text : String
  source : String
deriving DecidableEq, Repr

/-- Per-tenant disk storage. `filesDir` is the `files` directory as an
association list filename-to-content (`none` = directory absent);
`chromaIndex` is `some chunks` exactly when the Chroma directory holds the
`chroma.sqlite3` marker, i.e. after a persisted build. -/
structure TenantStorage where
  filesDir : Option (List (String × String))
  chromaIndex : Option (List Doc)
deriving DecidableEq, Repr

/-- Storage of a tenant never touched on disk. -/
def TenantStorage.empty : TenantStorage := ⟨none, none⟩

/-- The whole observable state: metadata store plus blob store. -/
structure AppState where
  apps : List (String × AppRecord)
  files_db : List FileRec
  storage : List (String × TenantStorage)
deriving DecidableEq, Repr

/-- Association-list lookup by key. -/
def alistGet {α : Type} (l : List (String × α)) (k : String) : Option α :=
  match l with
  | [] => none
  | (k', v) :: t => if k' = k then some v else alistGet t k

/-- Association-list update: replace the value at `k`, or append the pair
when `k` is absent. -/
def alistSet {α : Type} (l : List (String × α)) (k : String) (v : α) : List (String × α) :=
  match l with
  | [] => [(k, v)]
  | (k', v') :: t => if k' = k then (k', v) :: t else (k', v') :: alistSet t k v

/-! ## storage.py -/

/-- `STORAGE_ROOT`: base directory of all app storage. -/
def STORAGE_ROOT : String := "storage/apps"

/-- `get_app_root`. -/
def get_app_root (app_id : String) : String := STORAGE_ROOT ++ "/" ++ app_id

/-- `get_files_dir`. -/
def get_files_dir (app_id : String) : String := get_app_root app_id ++ "/files"

/-- `get_chroma_dir`. -/
def get_chroma_dir (app_id : String) : String := get_app_root app_id ++ "/chroma_db"

/-- The storage of a tenant as seen on disk. -/
def getStorage (st : AppState) (app_id : String) : TenantStorage :=
  (alistGet st.storage app_id).getD TenantStorage.empty

/-- Replace a tenant's storage in the state. -/
def setStorage (st : AppState) (app_id : String) (ts : TenantStorage) : AppState :=
  { st with storage := alistSet st.storage app_id ts }

/-- `ensure_app_dirs`: `os.makedirs(..., exist_ok=True)` for the files and
Chroma directories. Creating the Chroma directory writes no marker file, so
`chromaIndex` is untouched. -/
def ensure_app_dirs (st : AppState) (app_id : String) : AppState :=
  let ts := getStorage st app_id
  setStorage st app_id { ts with filesDir := some (ts.filesDir.getD []) }

/-- `save_file`: ensure directories, then write (overwriting an existing
file of the same name); returns the new state and the full file path. -/
def save_file (st : AppState) (app_id filename content : String) : AppState × String :=
  let st := ensure_app_dirs st app_id
  let ts := getStorage st app_id
  let entries := ts.filesDir.getD []
  let written :=
    if entries.any (fun e => e.1 = filename) then
      entries.map (fun e => if e.1 = filename then (e.1, content) else e)
    else entries ++ [(filename, content)]
  (setStorage st app_id { ts with filesDir := some written },
   get_files_dir app_id ++ "/" ++ filename)

/-- `get_all_file_paths`: empty when the directory is absent, otherwise the
full path of every regular file in it. -/
def get_all_file_paths (st : AppState) (app_id : String) : List String :=
  match (getStorage st app_id).filesDir with
  | none => []
  | some entries => entries.map (fun e => get_files_dir app_id ++ "/" ++ e.1)

/-- `clear_chroma_dir`: `shutil.rmtree` of the Chroma directory followed by
an empty `os.makedirs` — the marker file is gone, so no index remains. -/
def clear_chroma_dir (st : AppState) (app_id : String) : AppState :=
  let ts := getStorage st app_id
  setStorage st app_id { ts with chromaIndex := none }

/-- `get_supported_extensions`. -/
def get_supported_extensions : List String := [".txt", ".md"]

/-- `is_supported_file`: lower-cased `splitext` extension in the supported
set. -/
def is_supported_file (filename : String) : Bool :=
  decide (pyLower (fileExtension filename) ∈ get_supported_extensions)

/-! ## db.py -/

/-- `get_app`: the row of the `apps` table with this id. -/
def get_app (st : AppState) (app_id : String) : Option AppRecord :=
  alistGet st.apps app_id

/-- `update_app_status`: SQL UPDATE of `status` and `updated_at`, and of
`last_indexed_at` when an (always non-empty) timestamp argument is passed.
Matching no row is a no-op. -/
def update_app_status (st : AppState) (app_id : String) (status : Status)
    (last_indexed_at : Option Nat) (now : Nat) : AppState :=
  { st with
    apps := st.apps.map fun p =>
      if p.1 = app_id then
        (p.1, { p.2 with
                status := status
                updated_at := now
                last_indexed_at := match last_indexed_at with
                  | some v => some v
                  | none => p.2.last_indexed_at })
      else p }

/-- `add_file`: INSERT a row into the `files` table. -/
def add_file (st : AppState) (r : FileRec) : AppState :=
  { st with files_db := st.files_db ++ [r] }

/-- `get_files_for_app`: the rows of the `files` table with this app id. -/
def get_files_for_app (st : AppState) (app_id : String) : List FileRec :=
  st.files_db.filter (fun r => r.app_id = app_id)

/-! ## indexing.py -/

/-- `EMBED_MODEL`. -/
def EMBED_MODEL : String := "sentence-transformers/all-MiniLM-L6-v2"

/-- `CHUNK_SIZE`. -/
def CHUNK_SIZE : Nat := 800

/-- `CHUNK_OVERLAP`. -/
def CHUNK_OVERLAP : Nat := 120

/-- External collaborators of `build_index`: the
`RecursiveCharacterTextSplitter.split_documents` call, the outcome of the
embedding-plus-`Chroma.from_documents` persistence step (`some e` = that
step raised `e`), and the clock. -/
structure BuildEnv where
  split_documents : List Doc → List Doc
  persist_error : Option String
  now : Nat

/-- `load_documents`: raise when the tenant's files directory lists nothing;
otherwise load each file whose lower-cased extension is `.txt` or `.md` with
`TextLoader` (one document per file, `source` metadata = the path) and skip
the rest. Per-file loader errors are caught and skipped in the source; the
embedded loader reads the stored content and cannot fail. -/
def load_documents (st : AppState) (app_id : String) : Except String (List Doc) :=
  let file_paths := get_all_file_paths st app_id
  if file_paths.isEmpty then
    .error ("No files found for app '" ++ app_id ++ "'. Please upload files first.")
  else
    let entries := ((getStorage st app_id).filesDir).getD []
    .ok (entries.filterMap fun e =>
      let file_path := get_files_dir app_id ++ "/" ++ e.1
      if pyLower (fileExtension file_path) ∈ [".txt", ".md"] then
        some { text := e.2, source := file_path }
      else none)

/-- `chunk_documents`: delegate to the splitter. -/
def chunk_documents (env : BuildEnv) (docs : List Doc) : List Doc :=
  env.split_documents docs

/-- `Chroma.from_documents(..., persist_directory=...)` on success: the
Chroma directory now holds the marker and exactly these chunks. -/
def persist_index (st : AppState) (app_id : String) (chunks : List Doc) : AppState :=
  let ts := getStorage st app_id
  setStorage st app_id { ts with chromaIndex := some chunks }

/-- The steps of `build_index` that completed, in order. -/
inductive BuildEv
  | statusIndexing
  | clearIndex
  | loadDocs
  | chunkDocs
  | embedPersist
  | statusReady
  | statusFailed
deriving DecidableEq, Repr

/-- What a `build_index` call produced: the final state, the returned counts
or the re-raised exception, and the completed steps in order. -/
structure BuildOut where
  state : AppState
  result : Except String (Nat × Nat)
  trace : List BuildEv

/-- `build_index`: set status INDEXING, clear the old index, load, chunk,
embed and persist, set status READY with a last-indexed timestamp and return
`(len(docs), len(chunks))`; any exception sets status FAILED and is
re-raised. -/
def build_index (env : BuildEnv) (st : AppState) (app_id : String) : BuildOut :=
  let st := update_app_status st app_id .INDEXING none env.now
  let st := clear_chroma_dir st app_id
  match load_documents st app_id with
  | .error e =>
    { state := update_app_status st app_id .FAILED none env.now
      result := .error e
      trace := [.statusIndexing, .clearIndex, .statusFailed] }
  | .ok docs =>
    if docs.isEmpty then
      { state := update_app_status st app_id .FAILED none env.now
        result := .error "No documents could be loaded"
        trace := [.statusIndexing, .clearIndex, .loadDocs, .statusFailed] }
    else
      let chunks := chunk_documents env docs
      match env.persist_error with
      | some e =>
        { state := update_app_status st app_id .FAILED none env.now
          result := .error e
          trace := [.statusIndexing, .clearIndex, .loadDocs, .chunkDocs, .statusFailed] }
      | none =>
        let st := persist_index st app_id chunks
        let st := update_app_status st app_id .READY (some env.now) env.now
        { state := st
          result := .ok (docs.length, chunks.length)
          trace := [.statusIndexing, .clearIndex, .loadDocs, .chunkDocs, .embedPersist,
                    .statusReady] }

/-- `index_exists`: the `chroma.sqlite3` marker file is present. -/
def index_exists (st : AppState) (app_id : String) : Bool :=
  (getStorage st app_id).chromaIndex.isSome

/-! ## llm.py -/

/-- The fixed notice `MockLLM.generate` returns when it cannot extract a
long-enough context from the prompt. -/
def MOCK_NOTICE : String :=
  "I found some relevant information but need an LLM to generate a proper response. Please configure OPENAI_API_KEY."

/-- The label prefixed to the context excerpt. -/
def MOCK_LABEL : String := "Based on the documents: "

/-- The marker `"Context:"` searched by `MockLLM.generate`. -/
def CONTEXT_MARK : List Char := "Context:".data

/-- The marker `"Question:"` searched by `MockLLM.generate`. -/
def QUESTION_MARK : List Char := "Question:".data

/-- `MockLLM.generate`: when both markers occur, slice the prompt between
the end of the first `"Context:"` and the first `"Question:"`, strip it, and
if longer than 50 characters return the labelled 500-character excerpt
followed by `"..."`; otherwise (markers missing, or context empty or short)
return the fixed notice. -/
def mock_generate (prompt : String) : String :=
  let p := prompt.data
  match firstOcc? CONTEXT_MARK p, firstOcc? QUESTION_MARK p with
  | some ci, some qi =>
    let context_start := ci + CONTEXT_MARK.length
    let context := pyStrip ((p.drop context_start).take (qi - context_start))
    if 50 < context.length then
      ⟨MOCK_LABEL.data ++ context.take 500 ++ "...".data⟩
    else MOCK_NOTICE
  | _, _ => MOCK_NOTICE

/-! ## rag.py -/

/-- `TOP_K`: fixed retrieval depth. -/
def TOP_K : Nat := 3

/-- `SIMILARITY_THRESHOLD` (declared in the source, never used). -/
def SIMILARITY_THRESHOLD_TENTHS : Nat := 3

/-- Fixed pieces of the prompt template of `get_prompt_template` (an
f-string over `app_name` and `app_id` with `{context}` and `{question}`
placeholders). `TPL_A1`: before the app name. -/
def TPL_A1 : String := "You are a helpful assistant for the "

/-- Between the app name and the app id. -/
def TPL_A2 : String := " system.\nAnswer the question based ONLY on the following context from the uploaded documents.\nIf the question cannot be answered from the context, say:\n\"I don't have that information in the uploaded "

/-- Between the app id and the `Context:` heading. -/
def TPL_A3 : String := " documents.\"\n\n"

/-- Between the context and the question. -/
def TPL_Q : String := "\n\nQuestion: "

/-- After the question. -/
def TPL_END : String := "\n\nAnswer:"

/-- `get_prompt_template(app_id, app_name).format(context=..., question=...)`:
the fully instantiated prompt string. -/
def prompt_format (app_id app_name context question : String) : String :=
  TPL_A1 ++ app_name ++ TPL_A2 ++ app_id ++ TPL_A3 ++ "Context:" ++ "\n" ++ context
    ++ TPL_Q ++ question ++ TPL_END

/-- External collaborators of `chat`: the Chroma similarity ordering for a
query (the retriever takes its first `TOP_K` elements), a possible
retriever/vector-store exception, whether `OPENAI_API_KEY` is configured,
and the outcome of a `RetrievalQA`/ChatOpenAI generation on a prompt. -/
structure ChatEnv where
  rank : String → List Doc → List Doc
  retrieve_error : Option String
  has_openai_key : Bool
  openai_result : String → Except String String

/-- `vectordb.as_retriever(search_kwargs={"k": TOP_K}).invoke(query)`: the
first `TOP_K` documents of the similarity ordering. -/
def retrieve (env : ChatEnv) (idx : List Doc) (query : String) : List Doc :=
  (env.rank query idx).take TOP_K

/-- `load_vector_db`: raise unless the marker file exists, else open the
persisted chunks. -/
def load_vector_db (st : AppState) (app_id : String) : Except String (List Doc) :=
  if index_exists st app_id then .ok ((getStorage st app_id).chromaIndex.getD [])
  else .error ("No index found for app '" ++ app_id ++ "'. Please train first.")

/-- The structured result `chat` returns. -/
structure ChatResult where
  success : Bool
  answer : Option String
  sources : List String
  error : Option String
deriving DecidableEq, Repr

/-- The source-filename extraction loop of `chat`: basename of each
document's `source` metadata, appended unless already present. -/
def extract_sources (source_docs : List Doc) : List String :=
  source_docs.foldl
    (fun sources doc =>
      let filename := basename doc.source
      if filename ∈ sources then sources else sources ++ [filename])
    []

/-- The body of `chat`'s `try` block after the precondition checks: load the
vector store, retrieve, and generate with `RetrievalQA`/ChatOpenAI when a
key is configured, else with the manual-retrieval MockLLM path. Returns the
answer and the source documents. -/
def chat_try (env : ChatEnv) (st : AppState) (app_id message : String)
    (app : AppRecord) : Except String (String × List Doc) :=
  match load_vector_db st app_id with
  | .error e => .error e
  | .ok vectordb =>
    match env.retrieve_error with
    | some e => .error e
    | none =>
      let app_name := app.name
      let docs := retrieve env vectordb message
      if env.has_openai_key then
        let context := pyJoin "\n\n" (docs.map (·.text))
        match env.openai_result (prompt_format app_id app_name context message) with
        | .error e => .error e
        | .ok answer => .ok (answer, docs)
      else
        if docs.isEmpty then
          .ok ("I don't have that information in the uploaded " ++ app_id ++ " documents.", [])
        else
          let context := pyJoin "\n\n" (docs.map (·.text))
          let full_prompt := prompt_format app_id app_name context message
          .ok (mock_generate full_prompt, docs)

/-- `chat`: the orchestrator. Precondition checks in order (tenant exists,
status exactly READY), then the `try` block; every failure is returned as a
structured result, and the state — in particular the tenant record — is
never written. -/
def chat (env : ChatEnv) (st : AppState) (app_id message : String) :
    ChatResult × AppState :=
  match get_app st app_id with
  | none =>
    ({ success := false, answer := none, sources := []
       error := some ("App '" ++ app_id ++ "' not found") }, st)
  | some app =>
    if app.status ≠ Status.READY then
      ({ success := false, answer := none, sources := []
         error := some ("App '" ++ app_id ++ "' is not trained yet. Status: "
                        ++ app.status.str) }, st)
    else
      match chat_try env st app_id message app with
      | .ok (answer, source_docs) =>
        ({ success := true, answer := some answer
           sources := extract_sources source_docs, error := none }, st)
      | .error e =>
        ({ success := false, answer := none, sources := [], error := some e }, st)

/-! ## main.py — the upload endpoint -/

/-- External collaborators of `upload_files`: the SHA-256 hex digest and the
clock. -/
structure UploadEnv where
  hash : String → String
  now : Nat

/-- One multipart file of the batch. -/
structure UploadFile where
  filename : String
  content : String
deriving DecidableEq, Repr

/-- The data of the success response: the added file records and the
per-file error strings. -/
structure UploadData where
  uploaded : List FileRec
  errors : List String
deriving DecidableEq, Repr

/-- The file record `upload_files` inserts for a supported file (it does not
depend on the state). -/
def uploaded_record_of (env : UploadEnv) (app_id : String) (f : UploadFile) : FileRec :=
  { app_id := app_id
    filename := f.filename
    file_path := get_files_dir app_id ++ "/" ++ f.filename
    file_size := f.content.length
    file_hash := env.hash f.content
    uploaded_at := env.now }

/-- The per-file loop of `upload_files`: an unsupported extension adds an
error string and moves on; a supported file is hashed, saved and inserted
into the `files` table. Returns the state after the loop, the added records
and the error strings, each in batch order. -/
def upload_loop (env : UploadEnv) (app_id : String) :
    AppState → List UploadFile → AppState × List FileRec × List String
  | st, [] => (st, [], [])
  | st, f :: fs =>
    if is_supported_file f.filename then
      let st := (save_file st app_id f.filename f.content).1
      let r := uploaded_record_of env app_id f
      let st := add_file st r
      let rest := upload_loop env app_id st fs
      (rest.1, r :: rest.2.1, rest.2.2)
    else
      let rest := upload_loop env app_id st fs
      (rest.1, rest.2.1, ("Unsupported file type: " ++ f.filename) :: rest.2.2)

/-- `upload_files`: 404 when the tenant does not exist; otherwise run the
per-file loop and, when at least one file was uploaded, set status
FILES_UPDATED; the batch itself always succeeds. -/
def upload_files (env : UploadEnv) (st : AppState) (app_id : String)
    (files : List UploadFile) : Except String UploadData × AppState :=
  match get_app st app_id with
  | none => (.error ("App '" ++ app_id ++ "' not found"), st)
  | some _ =>
    let res := upload_loop env app_id st files
    let stFinal :=
      if res.2.1.isEmpty then res.1
      else update_app_status res.1 app_id .FILES_UPDATED none env.now
    (.ok { uploaded := res.2.1, errors := res.2.2 }, stFinal)

/-! ## Helper lemmas -/

/-- Lookup after an association-list update at the same key. -/
theorem alistGet_set_self {α : Type} (l : List (String × α)) (k : String) (v : α) :
    alistGet (alistSet l k v) k = some v := by
  induction l with
  | nil => simp [alistSet, alistGet]
  | cons p t ih =>
    by_cases h : p.1 = k
    · simp [alistSet, alistGet, h]
    · simp [alistSet, alistGet, h, ih]

/-- Lookup through the per-key map used by `update_app_status`. -/
theorem alistGet_map_if (l : List (String × AppRecord)) (a : String)
    (g : AppRecord → AppRecord) :
    alistGet (l.map fun p => if p.1 = a then (p.1, g p.2) else p) a
      = (alistGet l a).map g := by
  induction l with
  | nil => simp [alistGet]
  | cons p t ih =>
    obtain ⟨k, v⟩ := p
    by_cases h : k = a
    · subst h
      simp only [List.map_cons]
      simp [alistGet, ih]
    · simp only [List.map_cons]
      rw [if_neg h]
      simp [alistGet, h, ih]

/-- `update_app_status` rewrites the tenant's own record as read back by
`get_app`. -/
theorem get_app_update_self (st : AppState) (a : String) (s : Status)
    (li : Option Nat) (now : Nat) :
    get_app (update_app_status st a s li now) a
      = (get_app st a).map fun r =>
          { r with
            status := s
            updated_at := now
            last_indexed_at := match li with
              | some v => some v
              | none => r.last_indexed_at } := by
  unfold get_app update_app_status
  exact alistGet_map_if st.apps a (fun r =>
    { r with
      status := s
      updated_at := now
      last_indexed_at := match li with
        | some v => some v
        | none => r.last_indexed_at })

/-- `update_app_status` leaves the blob store untouched. -/
theorem getStorage_update (st : AppState) (a b : String) (s : Status)
    (li : Option Nat) (now : Nat) :
    getStorage (update_app_status st a s li now) b = getStorage st b := rfl

/-- `clear_chroma_dir` leaves the metadata store untouched. -/
theorem get_app_clear (st : AppState) (a b : String) :
    get_app (clear_chroma_dir st a) b = get_app st b := rfl

/-- `persist_index` leaves the metadata store untouched. -/
theorem get_app_persist (st : AppState) (a b : String) (chunks : List Doc) :
    get_app (persist_index st a chunks) b = get_app st b := rfl

/-- After `clear_chroma_dir` the tenant's storage keeps its files directory
and has no index. -/
theorem getStorage_clear_self (st : AppState) (a : String) :
    getStorage (clear_chroma_dir st a) a
      = { getStorage st a with chromaIndex := none } := by
  unfold clear_chroma_dir getStorage setStorage
  simp [alistGet_set_self]

/-- After `persist_index` the tenant's storage holds exactly the persisted
chunks. -/
theorem getStorage_persist_self (st : AppState) (a : String) (chunks : List Doc) :
    getStorage (persist_index st a chunks) a
      = { getStorage st a with chromaIndex := some chunks } := by
  unfold persist_index getStorage setStorage
  simp [alistGet_set_self]

/-- `chat` returns the state it was given on every path. -/
theorem chat_frame (env : ChatEnv) (st : AppState) (a m : String) :
    (chat env st a m).2 = st := by
  unfold chat
  split
  · rfl
  · split
    · rfl
    · split <;> rfl

/-! ## Claims about the chat orchestrator's precondition checks -/

/-- Claim C4: the chat operation checks its preconditions in order — a
missing tenant yields the structured not-found failure; an existing tenant
whose status is not exactly READY yields the structured not-trained failure
naming that status; and once the preconditions pass, any internal failure is
caught and returned as a structured failure carrying its message. The
embedded `chat` is a total function, so no exception crosses the boundary on
any path. -/
theorem claim_C4_chat_precondition_order (env : ChatEnv) (st : AppState) (a m : String) :
    (get_app st a = none →
      (chat env st a m).1
        = { success := false, answer := none, sources := []
            error := some ("App '" ++ a ++ "' not found") })
    ∧ (∀ app, get_app st a = some app → app.status ≠ Status.READY →
        (chat env st a m).1
          = { success := false, answer := none, sources := []
              error := some ("App '" ++ a ++ "' is not trained yet. Status: "
                             ++ app.status.str) })
    ∧ (∀ app e, get_app st a = some app → app.status = Status.READY →
        chat_try env st a m app = .error e →
        (chat env st a m).1
          = { success := false, answer := none, sources := [], error := some e }) := by
  refine ⟨fun h => ?_, fun app h hs => ?_, fun app e h hs ht => ?_⟩
  · unfold chat
    rw [h]
  · unfold chat
    rw [h]
    simp [hs]
  · unfold chat
    rw [h]
    simp [hs, ht]

/-- Claim C5: the chat operation never mutates the tenant record — or any
other part of the state — on any path: not-found, not-READY rejection,
internal failure, and success. -/
theorem claim_C5_chat_never_mutates (env : ChatEnv) (st : AppState) (a m : String) :
    (chat env st a m).2 = st :=
  chat_frame env st a m

/-- Claim C8: when the persisted index marker file is absent, loading the
vector store fails with the "no index" error, and a chat against a tenant
whose status is READY but whose marker file is absent still returns a
structured failure — index absence is decided structurally, not from the
status field. -/
theorem claim_C8_no_index_structural (env : ChatEnv) (st : AppState) (a m : String)
    (app : AppRecord) (hidx : index_exists st a = false) :
    load_vector_db st a
      = .error ("No index found for app '" ++ a ++ "'. Please train first.")
    ∧ (get_app st a = some app → app.status = Status.READY →
        (chat env st a m).1
          = { success := false, answer := none, sources := []
              error := some ("No index found for app '" ++ a ++ "'. Please train first.") }) := by
  constructor
  · unfold load_vector_db
    rw [hidx]
    rfl
  · intro h hs
    unfold chat
    rw [h]
    have ht : chat_try env st a m app
        = .error ("No index found for app '" ++ a ++ "'. Please train first.") := by
      unfold chat_try load_vector_db
      rw [hidx]
      rfl
    simp [hs, ht]

/-! ## Deduplication: the specification-level description of the source list -/

/-- Specification-side description of duplicate removal that keeps the first
occurrence of each element, in order. -/
def dedupFirst : List String → List String
  | [] => []
  | x :: xs => x :: dedupFirst (xs.filter fun y => y ≠ x)
termination_by l => l.length
decreasing_by
  simp only [List.length_cons]
  exact Nat.lt_succ_of_le (List.length_filter_le _ _)

/-- Unfolding equation of `dedupFirst` on a cons cell. -/
theorem dedupFirst_cons (x : String) (xs : List String) :
    dedupFirst (x :: xs) = x :: dedupFirst (xs.filter fun y => y ≠ x) := by
  rw [dedupFirst.eq_def]

/-- The accumulator loop of `extract_sources`, over an arbitrary name list,
computes first-occurrence deduplication of the names not already
accumulated. -/
theorem dedup_foldl (names : List String) (acc : List String) :
    names.foldl (fun sources x => if x ∈ sources then sources else sources ++ [x]) acc
      = acc ++ dedupFirst (names.filter fun y => y ∉ acc) := by
  induction names generalizing acc with
  | nil => simp [dedupFirst]
  | cons x t ih =>
    by_cases hx : x ∈ acc
    · simp only [List.foldl_cons, if_pos hx]
      rw [ih, List.filter_cons]
      simp [hx]
    · simp only [List.foldl_cons, if_neg hx]
      rw [ih, List.filter_cons,
        if_pos (show decide (x ∉ acc) = true by simp [hx]),
        dedupFirst_cons, List.append_assoc]
      simp only [List.singleton_append, List.filter_filter]
      have hfil : (List.filter (fun y => decide (y ∉ acc ++ [x])) t)
          = List.filter (fun a => decide (a ≠ x) && decide (a ∉ acc)) t := by
        apply List.filter_congr
        intro a _
        by_cases hax : a = x
        · subst hax
          simp
        · by_cases ha : a ∈ acc <;> simp [ha, hax, List.mem_append]
      rw [hfil]

/-- The extraction loop of `chat` equals map-then-deduplicate. -/
theorem extract_sources_eq (docs : List Doc) :
    extract_sources docs = dedupFirst (docs.map fun d => basename d.source) := by
  unfold extract_sources
  have h := List.foldl_map (fun d : Doc => basename d.source)
    (fun sources x => if x ∈ sources then sources else sources ++ [x]) docs []
  rw [← h, dedup_foldl]
  simp

/-- The extraction loop never produces a duplicate. -/
theorem extract_foldl_nodup (names : List String) (acc : List String) (h : acc.Nodup) :
    (names.foldl (fun sources x => if x ∈ sources then sources else sources ++ [x])
      acc).Nodup := by
  induction names generalizing acc with
  | nil => simpa
  | cons x t ih =>
    by_cases hx : x ∈ acc
    · simp only [List.foldl_cons, if_pos hx]
      exact ih acc h
    · simp only [List.foldl_cons, if_neg hx]
      refine ih (acc ++ [x]) ?_
      rw [List.nodup_append]
      exact ⟨h, List.nodup_singleton x, by simpa [List.disjoint_singleton]⟩

/-- The extraction loop adds at most one name per input element. -/
theorem extract_foldl_length (names : List String) (acc : List String) :
    (names.foldl (fun sources x => if x ∈ sources then sources else sources ++ [x])
      acc).length ≤ acc.length + names.length := by
  induction names generalizing acc with
  | nil => simp
  | cons x t ih =>
    by_cases hx : x ∈ acc
    · simp only [List.foldl_cons, if_pos hx]
      refine le_trans (ih acc) ?_
      simp only [List.length_cons]
      omega
    · simp only [List.foldl_cons, if_neg hx]
      refine le_trans (ih (acc ++ [x])) ?_
      simp only [List.length_append, List.length_cons, List.length_nil]
      omega

/-- Success shape of the `try` block: the vector store loaded, and the
source documents are either empty (the MockLLM empty-retrieval path) or
exactly the retrieved top-K documents. -/
theorem chat_try_ok (env : ChatEnv) (st : AppState) (a m : String) (app : AppRecord)
    (ans : String) (sdocs : List Doc)
    (h : chat_try env st a m app = .ok (ans, sdocs)) :
    ∃ idx, load_vector_db st a = .ok idx
      ∧ (sdocs = [] ∨ sdocs = retrieve env idx m) := by
  unfold chat_try at h
  cases hl : load_vector_db st a with
  | error e => rw [hl] at h; exact absurd h (by simp)
  | ok idx =>
    rw [hl] at h
    refine ⟨idx, rfl, ?_⟩
    cases hr : env.retrieve_error with
    | some e => rw [hr] at h; exact absurd h (by simp)
    | none =>
      rw [hr] at h
      by_cases hk : env.has_openai_key
      · simp only [hk, if_true] at h
        cases ho : env.openai_result
            (prompt_format a app.name
              (pyJoin "\n\n" ((retrieve env idx m).map (·.text))) m) with
        | error e => rw [ho] at h; exact absurd h (by simp)
        | ok answer =>
          rw [ho] at h
          right
          exact (congrArg (fun r => match r with
            | Except.ok (_, d) => d
            | Except.error _ => sdocs) h).symm
      · simp only [hk, if_false] at h
        by_cases hd : (retrieve env idx m).isEmpty
        · simp only [hd, if_true] at h
          left
          exact (congrArg (fun r => match r with
            | Except.ok (_, d) => d
            | Except.error _ => sdocs) h).symm
        · simp only [hd, if_false] at h
          right
          exact (congrArg (fun r => match r with
            | Except.ok (_, d) => d
            | Except.error _ => sdocs) h).symm

/-- Success shape of `chat`: the tenant exists, the `try` block succeeded,
and the result carries its answer and the extracted source names. -/
theorem chat_ok (env : ChatEnv) (st : AppState) (a m : String) (r : ChatResult)
    (h : (chat env st a m).1 = r) (hs : r.success = true) :
    ∃ app ans sdocs, get_app st a = some app
      ∧ chat_try env st a m app = .ok (ans, sdocs)
      ∧ r = { success := true, answer := some ans
              sources := extract_sources sdocs, error := none } := by
  unfold chat at h
  cases hg : get_app st a with
  | none =>
    rw [hg] at h
    rw [← h] at hs
    exact absurd hs (by simp)
  | some app =>
    rw [hg] at h
    by_cases hst : app.status = Status.READY
    · simp only [hst, ne_eq, not_true_eq_false, if_false] at h
      cases ht : chat_try env st a m app with
      | error e =>
        rw [ht] at h
        rw [← h] at hs
        exact absurd hs (by simp)
      | ok p =>
        obtain ⟨ans, sdocs⟩ := p
        rw [ht] at h
        exact ⟨app, ans, sdocs, rfl, ht, h.symm⟩
    · simp only [hst, ne_eq, not_false_iff, if_true] at h
      rw [← h] at hs
      exact absurd hs (by simp)

/-- Claim C6: on every successful chat call the returned source list is the
retrieved documents' source filenames reduced to their basenames, with
duplicates removed keeping the first occurrence in order; and in particular
retrieved chunks originating from files `a.txt`, `b.txt`, `a.txt` yield
sources `[a.txt, b.txt]`. -/
theorem claim_C6_sources_dedup_first_order (env : ChatEnv) (st : AppState)
    (a m : String) (r : ChatResult) (st' : AppState)
    (h : chat env st a m = (r, st')) (hs : r.success = true) :
    (∃ sdocs, (sdocs = [] ∨ ∃ idx, load_vector_db st a = .ok idx ∧ sdocs = retrieve env idx m)
      ∧ r.sources = dedupFirst (sdocs.map fun d => basename d.source))
    ∧ extract_sources
        [{ text := "x", source := "storage/apps/demo/files/a.txt" },
         { text := "y", source := "storage/apps/demo/files/b.txt" },
         { text := "z", source := "storage/apps/demo/files/a.txt" }]
        = ["a.txt", "b.txt"] := by
  constructor
  · obtain ⟨app, ans, sdocs, _, ht, hr⟩ :=
      chat_ok env st a m r (by rw [h]) hs
    obtain ⟨idx, hidx, hd⟩ := chat_try_ok env st a m app ans sdocs ht
    refine ⟨sdocs, ?_, ?_⟩
    · cases hd with
      | inl h0 => exact .inl h0
      | inr h1 => exact .inr ⟨idx, hidx, h1⟩
    · rw [hr]
      exact extract_sources_eq sdocs
  · decide

/-- Claim C10: on every successful chat call the returned source list has no
duplicate entries and its length is at most the fixed retrieval depth
`TOP_K = 3`. -/
theorem claim_C10_sources_nodup_bounded (env : ChatEnv) (st : AppState)
    (a m : String) (r : ChatResult) (st' : AppState)
    (h : chat env st a m = (r, st')) (hs : r.success = true) :
    r.sources.Nodup ∧ r.sources.length ≤ TOP_K := by
  obtain ⟨app, ans, sdocs, _, ht, hr⟩ := chat_ok env st a m r (by rw [h]) hs
  obtain ⟨idx, _, hd⟩ := chat_try_ok env st a m app ans sdocs ht
  have hsrc : r.sources = extract_sources sdocs := by rw [hr]
  have hlen : sdocs.length ≤ TOP_K := by
    cases hd with
    | inl h0 => simp [h0, TOP_K]
    | inr h1 =>
      rw [h1]
      unfold retrieve
      simp [List.length_take]
  constructor
  · rw [hsrc]
    unfold extract_sources
    have := extract_foldl_nodup (sdocs.map fun d => basename d.source) [] List.nodup_nil
    rw [List.foldl_map] at this
    exact this
  · rw [hsrc]
    unfold extract_sources
    have := extract_foldl_length (sdocs.map fun d => basename d.source) []
    rw [List.foldl_map] at this
    simp only [List.length_nil, List.length_map, Nat.zero_add] at this
    exact le_trans this hlen

/-! ## The upload endpoint -/

/-- `save_file` touches only the blob store. -/
theorem save_file_files_db (st : AppState) (a fn c : String) :
    (save_file st a fn c).1.files_db = st.files_db := rfl

/-- `save_file` leaves the metadata store untouched. -/
theorem save_file_apps (st : AppState) (a fn c : String) :
    (save_file st a fn c).1.apps = st.apps := rfl

/-- Characterization of the per-file upload loop: the added records are
exactly the supported files' records, the errors are exactly the
unsupported files' messages (each in batch order), the `files` table grows
by the added records, the `apps` table is untouched, and a batch with no
supported file changes nothing. -/
theorem upload_loop_spec (env : UploadEnv) (a : String) (fs : List UploadFile) :
    ∀ st : AppState,
      (upload_loop env a st fs).2.1
        = (fs.filter fun f => is_supported_file f.filename).map (uploaded_record_of env a)
      ∧ (upload_loop env a st fs).2.2
        = (fs.filter fun f => !is_supported_file f.filename).map
            (fun f => "Unsupported file type: " ++ f.filename)
      ∧ (upload_loop env a st fs).1.files_db
        = st.files_db ++ (upload_loop env a st fs).2.1
      ∧ (upload_loop env a st fs).1.apps = st.apps
      ∧ ((∀ f ∈ fs, is_supported_file f.filename = false) →
          (upload_loop env a st fs).1 = st) := by
  induction fs with
  | nil => intro st; simp [upload_loop]
  | cons f t ih =>
    intro st
    by_cases hsup : is_supported_file f.filename
    · set st2 := add_file (save_file st a f.filename f.content).1
        (uploaded_record_of env a f) with hst2
      obtain ⟨ih1, ih2, ih3, ih4, _⟩ := ih st2
      have hdb2 : st2.files_db = st.files_db ++ [uploaded_record_of env a f] := rfl
      have happ2 : st2.apps = st.apps := rfl
      refine ⟨?_, ?_, ?_, ?_, ?_⟩
      · simp [upload_loop, hsup, List.filter_cons, ih1, ← hst2]
      · simp [upload_loop, hsup, List.filter_cons, ih2, ← hst2]
      · simp only [upload_loop, if_pos hsup, ← hst2, ih3, hdb2, ih1,
          List.filter_cons, hsup, if_pos, decide_true_eq_true]
        simp
      · simp only [upload_loop, if_pos hsup, ← hst2, ih4, happ2]
      · intro h
        exact absurd hsup (by simpa using h f (List.mem_cons_self f t))
    · obtain ⟨ih1, ih2, ih3, ih4, ih5⟩ := ih st
      refine ⟨?_, ?_, ?_, ?_, ?_⟩
      · simp [upload_loop, hsup, List.filter_cons, ih1]
      · simp [upload_loop, hsup, List.filter_cons, ih2]
      · simp only [upload_loop, if_neg hsup, ih3]
      · simp only [upload_loop, if_neg hsup, ih4]
      · intro h
        simp only [upload_loop, if_neg hsup]
        exact ih5 (fun g hg => h g (List.mem_cons_of_mem f hg))

/-- Claim C9: for an upload batch to an existing tenant, each unsupported
file (extension compared case-insensitively against `.txt`/`.md`) is
rejected per-file with an error string and creates no file record, the
batch as a whole still succeeds, a batch with no supported file leaves the
whole state — in particular the tenant status — unchanged, and a batch with
at least one supported file ends with the tenant status FILES_UPDATED. -/
theorem claim_C9_upload_per_file (env : UploadEnv) (st : AppState) (a : String)
    (files : List UploadFile) (app : AppRecord) (h : get_app st a = some app) :
    ∃ data, (upload_files env st a files).1 = .ok data
      ∧ data.uploaded
          = (files.filter fun f => is_supported_file f.filename).map
              (uploaded_record_of env a)
      ∧ data.errors
          = (files.filter fun f => !is_supported_file f.filename).map
              (fun f => "Unsupported file type: " ++ f.filename)
      ∧ (upload_files env st a files).2.files_db = st.files_db ++ data.uploaded
      ∧ ((∀ f ∈ files, is_supported_file f.filename = false) →
          (upload_files env st a files).2 = st)
      ∧ ((∃ f ∈ files, is_supported_file f.filename = true) →
          (get_app (upload_files env st a files).2 a).map (·.status)
            = some Status.FILES_UPDATED) := by
  obtain ⟨l1, l2, l3, l4, l5⟩ := upload_loop_spec env a files st
  refine ⟨{ uploaded := (upload_loop env a st files).2.1
            errors := (upload_loop env a st files).2.2 }, ?_, l1, l2, ?_, ?_, ?_⟩
  · unfold upload_files
    rw [h]
  · unfold upload_files
    rw [h]
    by_cases he : (upload_loop env a st files).2.1.isEmpty
    · simp only [he, if_pos]
      exact l3
    · simp only [he, if_neg, Bool.false_eq_true, not_false_iff]
      show (update_app_status (upload_loop env a st files).1 a
        Status.FILES_UPDATED none env.now).files_db = _
      have : (update_app_status (upload_loop env a st files).1 a
          Status.FILES_UPDATED none env.now).files_db
          = (upload_loop env a st files).1.files_db := rfl
      rw [this, l3]
  · intro hall
    unfold upload_files
    rw [h]
    have hemp : (upload_loop env a st files).2.1.isEmpty = true := by
      rw [l1]
      simp only [List.isEmpty_iff, List.map_eq_nil_iff, List.filter_eq_nil_iff]
      intro f hf
      simp [hall f hf]
    simp only [hemp, if_pos]
    exact l5 hall
  · intro ⟨f, hf, hfs⟩
    unfold upload_files
    rw [h]
    have hne : (upload_loop env a st files).2.1.isEmpty = false := by
      rw [l1]
      have hfmem : f ∈ files.filter fun g => is_supported_file g.filename :=
        List.mem_filter.mpr ⟨hf, by simp [hfs]⟩
      have hm := List.mem_map_of_mem (uploaded_record_of env a) hfmem
      cases hc : ((files.filter fun g => is_supported_file g.filename).map
          (uploaded_record_of env a)).isEmpty
      · rfl
      · rw [List.isEmpty_iff] at hc
        rw [hc] at hm
        exact absurd hm (List.not_mem_nil _)
    simp only [hne, Bool.false_eq_true, if_neg, not_false_iff]
    have hget : get_app (upload_loop env a st files).1 a = get_app st a := by
      unfold get_app
      rw [l4]
    rw [get_app_update_self, hget, h]
    rfl

/-! ## The index builder -/

/-- Characterization of a successful `build_index` run: the documents loaded
after the INDEXING transition and the directory clear, the emptiness and
persistence checks passed, the returned counts, and the full output
record. -/
theorem build_index_ok (env : BuildEnv) (st : AppState) (a : String) (d c : Nat)
    (h : (build_index env st a).result = .ok (d, c)) :
    ∃ docs,
      load_documents (clear_chroma_dir (update_app_status st a .INDEXING none env.now) a) a
        = .ok docs
      ∧ docs.isEmpty = false
      ∧ env.persist_error = none
      ∧ d = docs.length
      ∧ c = (chunk_documents env docs).length
      ∧ build_index env st a =
          { state :=
              update_app_status
                (persist_index
                  (clear_chroma_dir (update_app_status st a .INDEXING none env.now) a)
                  a (chunk_documents env docs))
                a .READY (some env.now) env.now
            result := .ok (docs.length, (chunk_documents env docs).length)
            trace := [.statusIndexing, .clearIndex, .loadDocs, .chunkDocs, .embedPersist,
                      .statusReady] } := by
  simp only [build_index] at h
  split at h
  · simp at h
  · rename_i docs heq
    split at h
    · simp at h
    · rename_i hne
      split at h
      · simp at h
      · rename_i hp
        simp only [Except.ok.injEq, Prod.mk.injEq] at h
        refine ⟨docs, heq, by simpa using hne, hp, h.1.symm, h.2.symm, ?_⟩
        simp only [build_index, heq, hp]
        split
        · rename_i hcontra
          exact absurd hcontra (by simpa using hne)
        · rfl

/-- Characterization of a failed `build_index` run: the final state is the
FAILED transition applied after the INDEXING transition and the directory
clear. -/
theorem build_index_error (env : BuildEnv) (st : AppState) (a : String) (e : String)
    (h : (build_index env st a).result = .error e) :
    (build_index env st a).state
      = update_app_status
          (clear_chroma_dir (update_app_status st a .INDEXING none env.now) a)
          a .FAILED none env.now := by
  simp only [build_index] at h ⊢
  split at h
  · rfl
  · split at h
    · rename_i hemp
      rw [if_pos hemp]
    · rename_i hemp
      rw [if_neg hemp]
      split at h
      · rfl
      · simp at h

/-- Every document produced by a successful `load_documents` comes from an
entry of the tenant's files directory, with `source` metadata equal to that
entry's full path. -/
theorem load_documents_ok_mem (st : AppState) (a : String) (docs : List Doc)
    (h : load_documents st a = .ok docs) :
    ∀ dd ∈ docs, ∃ e ∈ (getStorage st a).filesDir.getD [],
      dd.source = get_files_dir a ++ "/" ++ e.1 := by
  simp only [load_documents] at h
  split at h
  · simp at h
  · have hdocs := Except.ok.inj h
    intro dd hdd
    rw [← hdocs] at hdd
    obtain ⟨e, he, hfe⟩ := List.mem_filterMap.mp hdd
    refine ⟨e, he, ?_⟩
    by_cases hext : pyLower (fileExtension (get_files_dir a ++ "/" ++ e.1)) ∈ [".txt", ".md"]
    · rw [if_pos hext] at hfe
      have := Option.some.inj hfe
      rw [← this]
    · rw [if_neg hext] at hfe
      exact absurd hfe (by simp)

/-- The files directory survives the INDEXING transition and the index
clear untouched. -/
theorem filesDir_after_clear (st : AppState) (a : String) (s : Status)
    (li : Option Nat) (now : Nat) :
    (getStorage (clear_chroma_dir (update_app_status st a s li now) a) a).filesDir
      = (getStorage st a).filesDir := by
  rw [getStorage_clear_self, getStorage_update]

/-- Claim C1: on every tenant for which `build_index` completes without an
exception the steps happened in order — status INDEXING, index directory
cleared, documents loaded, documents chunked, chunks embedded and persisted,
status READY with a recorded last-indexed timestamp — and the call returned
the pair (number of loaded documents, number of produced chunks). -/
theorem claim_C1_build_success_order (env : BuildEnv) (st : AppState) (a : String)
    (d c : Nat) (app : AppRecord) (happ : get_app st a = some app)
    (h : (build_index env st a).result = .ok (d, c)) :
    (build_index env st a).trace
      = [.statusIndexing, .clearIndex, .loadDocs, .chunkDocs, .embedPersist, .statusReady]
    ∧ (∃ docs,
        load_documents (clear_chroma_dir (update_app_status st a .INDEXING none env.now) a) a
          = .ok docs
        ∧ d = docs.length ∧ c = (chunk_documents env docs).length)
    ∧ (∃ r, get_app (build_index env st a).state a = some r
        ∧ r.status = .READY ∧ r.last_indexed_at = some env.now) := by
  obtain ⟨docs, hl, _, _, hdd, hcc, heq⟩ := build_index_ok env st a d c h
  refine ⟨by rw [heq], ⟨docs, hl, hdd, hcc⟩, ?_⟩
  rw [heq]
  show (∃ r, get_app (update_app_status _ a .READY (some env.now) env.now) a = some r
    ∧ r.status = .READY ∧ r.last_indexed_at = some env.now)
  rw [get_app_update_self, get_app_persist, get_app_clear, get_app_update_self, happ]
  exact ⟨_, rfl, rfl, rfl⟩

/-- Claim C2 (amended): if any step of `build_index` raises — including the
case of zero loadable documents — the tenant status is set to FAILED and the
exception is re-raised to the caller; the status then stays FAILED across
chat operations (which never write state) until a new training attempt runs
or a new upload intervenes. -/
theorem claim_C2_failure_sets_failed (env : BuildEnv) (st : AppState) (a : String)
    (e : String) (app : AppRecord) (happ : get_app st a = some app)
    (h : (build_index env st a).result = .error e) :
    (get_app (build_index env st a).state a).map (·.status) = some Status.FAILED
    ∧ ∀ (cenv : ChatEnv) (m : String),
        (chat cenv (build_index env st a).state a m).2 = (build_index env st a).state := by
  constructor
  · rw [build_index_error env st a e h, get_app_update_self, get_app_clear,
      get_app_update_self, happ]
    rfl
  · intro cenv m
    exact chat_frame cenv _ a m

/-- Claim C3: a rebuild fully replaces the prior persisted index — the
post-rebuild index holds exactly the chunks of the current build, every one
of them originates from a file present in the tenant's files directory at
rebuild time, and a chunk from an absent file is neither in the index nor in
any retrieval result drawn from it. The splitter is assumed to preserve each
chunk's originating source metadata, and the similarity ranking to return
elements of the indexed list. -/
theorem claim_C3_rebuild_replaces_index (env : BuildEnv) (st : AppState) (a : String)
    (d c : Nat)
    (hsplit : ∀ docs ch, ch ∈ env.split_documents docs → ∃ dd ∈ docs, ch.source = dd.source)
    (h : (build_index env st a).result = .ok (d, c)) :
    ∃ chunks, (getStorage (build_index env st a).state a).chromaIndex = some chunks
      ∧ (∀ ch ∈ chunks, ∃ e ∈ (getStorage st a).filesDir.getD [],
            ch.source = get_files_dir a ++ "/" ++ e.1)
      ∧ ∀ ch : Doc,
          (∀ e ∈ (getStorage st a).filesDir.getD [],
              ch.source ≠ get_files_dir a ++ "/" ++ e.1) →
          ch ∉ chunks
          ∧ ∀ (cenv : ChatEnv) (q : String),
              (∀ x ∈ cenv.rank q chunks, x ∈ chunks) →
              ch ∉ retrieve cenv chunks q := by
  obtain ⟨docs, hl, _, _, _, _, heq⟩ := build_index_ok env st a d c h
  have hmem : ∀ ch ∈ chunk_documents env docs,
      ∃ e ∈ (getStorage st a).filesDir.getD [],
        ch.source = get_files_dir a ++ "/" ++ e.1 := by
    intro ch hch
    obtain ⟨dd, hdd, hsrc⟩ := hsplit docs ch hch
    obtain ⟨e, he, hpe⟩ := load_documents_ok_mem _ a docs hl dd hdd
    rw [filesDir_after_clear] at he
    exact ⟨e, he, by rw [hsrc, hpe]⟩
  refine ⟨chunk_documents env docs, ?_, hmem, ?_⟩
  · rw [heq]
    show (getStorage (update_app_status _ a .READY (some env.now) env.now) a).chromaIndex
      = some (chunk_documents env docs)
    rw [getStorage_update, getStorage_persist_self]
  · intro ch hnot
    have hnotin : ch ∉ chunk_documents env docs := by
      intro hch
      obtain ⟨e, he, hpe⟩ := hmem ch hch
      exact hnot e he hpe
    refine ⟨hnotin, ?_⟩
    intro cenv q hrank hch
    have h1 : ch ∈ cenv.rank q (chunk_documents env docs) :=
      List.mem_of_mem_take hch
    exact hnotin (hrank ch h1)

/-! ## The fallback answer generator -/

/-- A pattern is found at index 0 when it is a prefix. -/
theorem firstOcc_of_isPrefixOf (pat l : List Char) (h : pat.isPrefixOf l = true) :
    firstOcc? pat l = some 0 := by
  cases l with
  | nil =>
    have : pat = [] := by
      cases pat with
      | nil => rfl
      | cons a t => simp [List.isPrefixOf] at h
    simp [firstOcc?, this]
  | cons c s =>
    simp [firstOcc?, h]

/-- Scanning skips a head character different from the pattern's head. -/
theorem firstOcc_cons_ne (pc : Char) (pt : List Char) (c : Char) (s : List Char)
    (h : c ≠ pc) :
    firstOcc? (pc :: pt) (c :: s) = (firstOcc? (pc :: pt) s).map (· + 1) := by
  have hpre : ((pc :: pt).isPrefixOf (c :: s)) = false := by
    simp [List.isPrefixOf]
    intro hh
    exact absurd hh.symm h
  simp [firstOcc?, hpre]

/-- Scanning past a block that does not contain the pattern's head character
adds the block's length to the found index. -/
theorem firstOcc_append_of_head_notin (pc : Char) (pt : List Char)
    (A b : List Char) (h : ∀ x ∈ A, x ≠ pc) :
    firstOcc? (pc :: pt) (A ++ b)
      = (firstOcc? (pc :: pt) b).map (A.length + ·) := by
  induction A with
  | nil =>
    cases ho : firstOcc? (pc :: pt) b <;> simp [ho]
  | cons a A ih =>
    have ha : a ≠ pc := h a (List.mem_cons_self a A)
    rw [List.cons_append, firstOcc_cons_ne pc pt a _ ha,
      ih (fun x hx => h x (List.mem_cons_of_mem a hx))]
    cases ho : firstOcc? (pc :: pt) b <;> simp [ho]
    omega

/-- Stripping is unaffected by a leading newline and two trailing
newlines. -/
theorem pyStrip_surround (x : List Char) :
    pyStrip ("\n".data ++ (x ++ "\n\n".data)) = pyStrip x := by
  show pyStrip ('\n' :: (x ++ ['\n', '\n'])) = pyStrip x
  unfold pyStrip
  rw [List.dropWhile_cons]
  have hnl : pyIsSpace '\n' = true := by decide
  rw [if_pos hnl, List.dropWhile_append]
  by_cases he : (List.dropWhile pyIsSpace x).isEmpty
  · rw [if_pos he]
    have h1 : List.dropWhile pyIsSpace ['\n', '\n'] = [] := by decide
    rw [h1]
    have h2 : (List.dropWhile pyIsSpace x) = [] := by
      simpa [List.isEmpty_iff] using he
    rw [h2]
  · rw [if_neg he]
    rw [List.reverse_append]
    have h3 : List.dropWhile pyIsSpace (['\n', '\n'].reverse
        ++ (List.dropWhile pyIsSpace x).reverse)
        = List.dropWhile pyIsSpace (List.dropWhile pyIsSpace x).reverse := by
      show List.dropWhile pyIsSpace ('\n' :: '\n' :: (List.dropWhile pyIsSpace x).reverse) = _
      rw [List.dropWhile_cons, if_pos hnl, List.dropWhile_cons, if_pos hnl]
    rw [h3]

set_option maxRecDepth 8192 in
/-- Claim C7: with no external LLM credential configured, answer generation
is the deterministic MockLLM — on the prompt the chat orchestrator builds
from the template, if the retrieved context is empty or implausibly short
(at most 50 characters once stripped) the fixed "no LLM configured" notice
is returned, and otherwise the answer is the first 500 characters of the
stripped concatenated context, prefixed with the explanatory label and
suffixed with an ellipsis. Tenant name, id and context are assumed not to
contain the capital letters that start the prompt's section markers, so the
marker search lands on the template's own headings. -/
theorem claim_C7_mock_fallback (app_id app_name context question : String)
    (hCn : 'C' ∉ app_name.data) (hCi : 'C' ∉ app_id.data)
    (hQn : 'Q' ∉ app_name.data) (hQi : 'Q' ∉ app_id.data)
    (hQc : 'Q' ∉ context.data) :
    mock_generate (prompt_format app_id app_name context question)
      = if 50 < (pyStrip context.data).length
        then ⟨MOCK_LABEL.data ++ (pyStrip context.data).take 500 ++ "...".data⟩
        else MOCK_NOTICE := by
  have hq : TPL_Q.data = "\n\n".data ++ ("Question:".data ++ " ".data) := by decide
  have hsplit1 : (prompt_format app_id app_name context question).data
      = (TPL_A1.data ++ (app_name.data ++ (TPL_A2.data ++ (app_id.data ++ TPL_A3.data))))
        ++ (CONTEXT_MARK ++ ("\n".data ++ (context.data ++ ("\n\n".data
          ++ ("Question:".data ++ (" ".data ++ (question.data ++ TPL_END.data))))))) := by
    simp only [prompt_format, String.data_append, CONTEXT_MARK, hq, List.append_assoc]
  set HEAD := TPL_A1.data ++ (app_name.data ++ (TPL_A2.data ++ (app_id.data ++ TPL_A3.data)))
    with hHEAD
  set HEAD2 := HEAD ++ (CONTEXT_MARK ++ ("\n".data ++ (context.data ++ "\n\n".data)))
    with hHEAD2
  have hsplit2 : (prompt_format app_id app_name context question).data
      = HEAD2 ++ ("Question:".data ++ (" ".data ++ (question.data ++ TPL_END.data))) := by
    rw [hsplit1, hHEAD2]
    simp [List.append_assoc]
  have hCHead : ∀ x ∈ HEAD, x ≠ 'C' := by
    intro x hx
    rw [hHEAD] at hx
    simp only [List.mem_append] at hx
    have f1 : ∀ y ∈ TPL_A1.data, y ≠ 'C' := by decide
    have f2 : ∀ y ∈ TPL_A2.data, y ≠ 'C' := by decide
    have f3 : ∀ y ∈ TPL_A3.data, y ≠ 'C' := by decide
    rcases hx with h | h | h | h | h
    · exact f1 x h
    · intro he; rw [he] at h; exact hCn h
    · exact f2 x h
    · intro he; rw [he] at h; exact hCi h
    · exact f3 x h
  have hQHead : ∀ x ∈ HEAD2, x ≠ 'Q' := by
    intro x hx
    rw [hHEAD2, hHEAD] at hx
    simp only [List.mem_append] at hx
    have f1 : ∀ y ∈ TPL_A1.data, y ≠ 'Q' := by decide
    have f2 : ∀ y ∈ TPL_A2.data, y ≠ 'Q' := by decide
    have f3 : ∀ y ∈ TPL_A3.data, y ≠ 'Q' := by decide
    have f4 : ∀ y ∈ CONTEXT_MARK, y ≠ 'Q' := by decide
    have f5 : ∀ y ∈ "\n".data, y ≠ 'Q' := by decide
    have f6 : ∀ y ∈ "\n\n".data, y ≠ 'Q' := by decide
    rcases hx with ⟨h | h | h | h | h⟩ | h | h | h | h
    · exact f1 x h
    · intro he; rw [he] at h; exact hQn h
    · exact f2 x h
    · intro he; rw [he] at h; exact hQi h
    · exact f3 x h
    · exact f4 x h
    · exact f5 x h
    · intro he; rw [he] at h; exact hQc h
    · exact f6 x h
  have hpatC : CONTEXT_MARK = 'C' :: "ontext:".data := by decide
  have hpatQ : ("Question:".data : List Char) = 'Q' :: "uestion:".data := by decide
  have hC2 : firstOcc? CONTEXT_MARK (prompt_format app_id app_name context question).data
      = some HEAD.length := by
    rw [hsplit1, hpatC,
      firstOcc_append_of_head_notin 'C' "ontext:".data HEAD _ hCHead,
      firstOcc_of_isPrefixOf _ _
        (List.isPrefixOf_iff_prefix.mpr (List.prefix_append _ _))]
    simp
  have hQ2 : firstOcc? QUESTION_MARK (prompt_format app_id app_name context question).data
      = some HEAD2.length := by
    have hmk : QUESTION_MARK = "Question:".data := rfl
    rw [hsplit2, hmk, hpatQ,
      firstOcc_append_of_head_notin 'Q' "uestion:".data HEAD2 _ hQHead,
      firstOcc_of_isPrefixOf _ _
        (List.isPrefixOf_iff_prefix.mpr (List.prefix_append _ _))]
    simp
  have hlen1 : ("\n".data : List Char).length = 1 := by decide
  have hlen2 : ("\n\n".data : List Char).length = 2 := by decide
  have hlenM : (CONTEXT_MARK : List Char).length = 8 := by decide
  have hdrop : ((prompt_format app_id app_name context question).data).drop
      (HEAD.length + CONTEXT_MARK.length)
      = "\n".data ++ (context.data ++ ("\n\n".data
          ++ ("Question:".data ++ (" ".data ++ (question.data ++ TPL_END.data))))) := by
    rw [hsplit1, ← List.append_assoc]
    exact List.drop_left' (by rw [List.length_append])
  have hsub : HEAD2.length - (HEAD.length + CONTEXT_MARK.length)
      = context.data.length + 3 := by
    rw [hHEAD2]
    simp only [List.length_append, hlen1, hlen2, hlenM]
    omega
  have htake : ("\n".data ++ (context.data ++ ("\n\n".data
        ++ ("Question:".data ++ (" ".data ++ (question.data ++ TPL_END.data)))))).take
      (context.data.length + 3)
      = "\n".data ++ (context.data ++ "\n\n".data) := by
    rw [show ("\n".data ++ (context.data ++ ("\n\n".data
        ++ ("Question:".data ++ (" ".data ++ (question.data ++ TPL_END.data))))))
        = ("\n".data ++ (context.data ++ "\n\n".data))
          ++ ("Question:".data ++ (" ".data ++ (question.data ++ TPL_END.data)))
      by simp [List.append_assoc]]
    exact List.take_left' (by simp only [List.length_append, hlen1, hlen2]; omega)
  simp only [mock_generate, hC2, hQ2]
  rw [hdrop, hsub, htake, pyStrip_surround]

/-! ## Concrete scenario used by the witnesses -/

/-- The identity splitter: one chunk per document. -/
def wSplit : List Doc → List Doc := fun docs => docs

/-- Build environment: identity splitter, persistence succeeds, clock at
7. -/
def wBEnv : BuildEnv := { split_documents := wSplit, persist_error := none, now := 7 }

/-- Chat environment: ranking keeps index order, no retriever failure, no
OpenAI key. -/
def wCEnv : ChatEnv :=
  { rank := fun _ l => l, retrieve_error := none, has_openai_key := false
    openai_result := fun _ => .ok "" }

/-- Upload environment: identity digest, clock at 9. -/
def wUEnv : UploadEnv := { hash := fun s => s, now := 9 }

/-- A tenant record in READY state. -/
def wRec : AppRecord :=
  { name := "demo app", status := Status.READY, last_indexed_at := some 1, updated_at := 1 }

/-- A tenant record awaiting training. -/
def wTRec : AppRecord :=
  { name := "demo app", status := Status.FILES_UPDATED, last_indexed_at := none
    updated_at := 0 }

/-- Chunks retrieved from files a.txt, b.txt and again a.txt. -/
def wChunkA : Doc := { text := "the sky is blue", source := "storage/apps/demo/files/a.txt" }

/-- Chunk from b.txt. -/
def wChunkB : Doc := { text := "grass is green", source := "storage/apps/demo/files/b.txt" }

/-- Second chunk from a.txt. -/
def wChunkA2 : Doc :=
  { text := "the sky is very blue", source := "storage/apps/demo/files/a.txt" }

/-- A chunk from a file that is no longer in the tenant's storage. -/
def wStale : Doc := { text := "old", source := "storage/apps/demo/files/deleted.txt" }

/-- A READY tenant with a persisted index of three chunks. -/
def wReadySt : AppState :=
  { apps := [("demo", wRec)]
    files_db := []
    storage := [("demo", { filesDir := some [("a.txt", "the sky is blue")]
                           chromaIndex := some [wChunkA, wChunkB, wChunkA2] })] }

/-- A READY tenant whose index marker file is absent. -/
def wNoIdxSt : AppState :=
  { apps := [("demo", wRec)]
    files_db := []
    storage := [("demo", { filesDir := some [("a.txt", "the sky is blue")]
                           chromaIndex := none })] }

/-- A tenant with one uploaded text file, ready to train. -/
def wTrainSt : AppState :=
  { apps := [("demo", wTRec)]
    files_db := []
    storage := [("demo", { filesDir := some [("a.txt", "hello sky")]
                           chromaIndex := none })] }

/-- A tenant with no storage at all: training fails. -/
def wNoFilesSt : AppState :=
  { apps := [("demo", wTRec)], files_db := [], storage := [] }

/-- A tenant stuck in FAILED state. -/
def wFailedSt : AppState :=
  { apps := [("demo", { name := "demo app", status := Status.FAILED
                        last_indexed_at := none, updated_at := 0 })]
    files_db := []
    storage := [] }

/-- An empty deployment: no tenants. -/
def wEmptySt : AppState := { apps := [], files_db := [], storage := [] }

/-- A retrieved context longer than 50 characters, free of the markers'
capital letters. -/
def wCtx : String := "the sky is blue and the grass is green in the garden"

/-! ## Witnesses and the counterexample -/

/-- Witness for C1: training the one-file tenant returns counts (1, 1), the
trace is the canonical order, and the final record is READY with the clock's
timestamp. -/
theorem claim_C1_witness :
    (build_index wBEnv wTrainSt "demo").result = .ok (1, 1)
    ∧ (build_index wBEnv wTrainSt "demo").trace
        = [.statusIndexing, .clearIndex, .loadDocs, .chunkDocs, .embedPersist, .statusReady]
    ∧ (get_app (build_index wBEnv wTrainSt "demo").state "demo").map (·.status)
        = some Status.READY
    ∧ (get_app (build_index wBEnv wTrainSt "demo").state "demo").map (·.last_indexed_at)
        = some (some 7) := by
  have h := claim_C1_build_success_order wBEnv wTrainSt "demo" 1 1 wTRec rfl rfl
  obtain ⟨r, hr, hs, hl⟩ := h.2.2
  refine ⟨rfl, h.1, ?_, ?_⟩
  · rw [hr, Option.map_some', hs]
  · rw [hr, Option.map_some', hl]
    rfl

/-- Witness for C2 (amended): training the file-less tenant raises the
"no files" error, leaves it FAILED, and a subsequent chat does not move the
state. -/
theorem claim_C2_witness :
    (build_index wBEnv wNoFilesSt "demo").result
      = .error "No files found for app 'demo'. Please upload files first."
    ∧ (get_app (build_index wBEnv wNoFilesSt "demo").state "demo").map (·.status)
        = some Status.FAILED
    ∧ (chat wCEnv (build_index wBEnv wNoFilesSt "demo").state "demo" "hi").2
        = (build_index wBEnv wNoFilesSt "demo").state := by
  have h := claim_C2_failure_sets_failed wBEnv wNoFilesSt "demo"
    "No files found for app 'demo'. Please upload files first." wTRec rfl rfl
  exact ⟨rfl, h.1, h.2 wCEnv "hi"⟩

/-- Counterexample for C2 as stated: a tenant in FAILED state changes status
without any training attempt — uploading a supported file moves it to
FILES_UPDATED. -/
theorem claim_C2_counterexample :
    (get_app (upload_files wUEnv wFailedSt "demo"
        [{ filename := "a.txt", content := "hello" }]).2 "demo").map (·.status)
      = some Status.FILES_UPDATED
    ∧ Status.FILES_UPDATED ≠ Status.FAILED := by
  exact ⟨rfl, by decide⟩

/-- Witness for C3: rebuilding the one-file tenant persists exactly the
chunk of a.txt, and a stale chunk from a deleted file is neither indexed nor
retrievable. -/
theorem claim_C3_witness :
    (build_index wBEnv wTrainSt "demo").result = .ok (1, 1)
    ∧ (getStorage (build_index wBEnv wTrainSt "demo").state "demo").chromaIndex
        = some [{ text := "hello sky", source := "storage/apps/demo/files/a.txt" }]
    ∧ wStale ∉ [({ text := "hello sky", source := "storage/apps/demo/files/a.txt" } : Doc)]
    ∧ wStale ∉ retrieve wCEnv
        [({ text := "hello sky", source := "storage/apps/demo/files/a.txt" } : Doc)] "q" := by
  have h := claim_C3_rebuild_replaces_index wBEnv wTrainSt "demo" 1 1
    (fun docs ch hch => ⟨ch, hch, rfl⟩) rfl
  obtain ⟨chunks, hidx, _, hstale⟩ := h
  have hconc : (getStorage (build_index wBEnv wTrainSt "demo").state "demo").chromaIndex
      = some [({ text := "hello sky", source := "storage/apps/demo/files/a.txt" } : Doc)] := rfl
  have hchunks : chunks
      = [({ text := "hello sky", source := "storage/apps/demo/files/a.txt" } : Doc)] := by
    have := hconc
    rw [hidx] at this
    exact Option.some.inj this
  have hs := hstale wStale (by decide)
  refine ⟨rfl, hconc, ?_, ?_⟩
  · rw [← hchunks]
    exact hs.1
  · rw [← hchunks]
    exact hs.2 wCEnv "q" (fun x hx => hx)

/-- Witness for C4: chatting with an unknown tenant returns the structured
not-found failure. -/
theorem claim_C4_witness :
    get_app wEmptySt "ghost" = none
    ∧ (chat wCEnv wEmptySt "ghost" "hi").1
        = { success := false, answer := none, sources := []
            error := some "App 'ghost' not found" } :=
  ⟨rfl, (claim_C4_chat_precondition_order wCEnv wEmptySt "ghost" "hi").1 rfl⟩

/-- Witness for C6: a successful chat over chunks from a.txt, b.txt, a.txt
returns sources [a.txt, b.txt], and the extraction loop on those chunks
deduplicates in first-occurrence order. -/
theorem claim_C6_witness :
    (chat wCEnv wReadySt "demo" "what color is the sky").1.success = true
    ∧ (chat wCEnv wReadySt "demo" "what color is the sky").1.sources = ["a.txt", "b.txt"]
    ∧ extract_sources
        [{ text := "x", source := "storage/apps/demo/files/a.txt" },
         { text := "y", source := "storage/apps/demo/files/b.txt" },
         { text := "z", source := "storage/apps/demo/files/a.txt" }]
        = ["a.txt", "b.txt"] := by
  have h := claim_C6_sources_dedup_first_order wCEnv wReadySt "demo" "what color is the sky"
    (chat wCEnv wReadySt "demo" "what color is the sky").1
    (chat wCEnv wReadySt "demo" "what color is the sky").2 rfl rfl
  exact ⟨rfl, rfl, h.2⟩

/-- Witness for C7: the long concrete context yields the labelled
500-character excerpt branch of the deterministic fallback. -/
theorem claim_C7_witness :
    ('C' ∉ "demo app".data) ∧ ('C' ∉ "demo".data)
    ∧ ('Q' ∉ "demo app".data) ∧ ('Q' ∉ "demo".data) ∧ ('Q' ∉ wCtx.data)
    ∧ mock_generate (prompt_format "demo" "demo app" wCtx "what color is the sky")
        = if 50 < (pyStrip wCtx.data).length
          then ⟨MOCK_LABEL.data ++ (pyStrip wCtx.data).take 500 ++ "...".data⟩
          else MOCK_NOTICE :=
  ⟨by decide, by decide, by decide, by decide, by decide,
   claim_C7_mock_fallback "demo" "demo app" wCtx "what color is the sky"
     (by decide) (by decide) (by decide) (by decide) (by decide)⟩

/-- Witness for C8: a READY tenant with no marker file yields the structured
"no index" failure. -/
theorem claim_C8_witness :
    index_exists wNoIdxSt "demo" = false
    ∧ load_vector_db wNoIdxSt "demo"
        = .error "No index found for app 'demo'. Please train first."
    ∧ (chat wCEnv wNoIdxSt "demo" "hi").1
        = { success := false, answer := none, sources := []
            error := some "No index found for app 'demo'. Please train first." } := by
  have h := claim_C8_no_index_structural wCEnv wNoIdxSt "demo" "hi" wRec rfl
  exact ⟨rfl, h.1, h.2 rfl rfl⟩

/-- Witness for C9: a batch of one supported and one unsupported file
succeeds, records the supported file, reports the unsupported one, and ends
in FILES_UPDATED. -/
theorem claim_C9_witness :
    get_app wTrainSt "demo" = some wTRec
    ∧ (upload_files wUEnv wTrainSt "demo"
        [{ filename := "c.txt", content := "hi" }, { filename := "img.png", content := "z" }]).1
        = .ok { uploaded := [uploaded_record_of wUEnv "demo"
                              { filename := "c.txt", content := "hi" }]
                errors := ["Unsupported file type: img.png"] }
    ∧ (get_app (upload_files wUEnv wTrainSt "demo"
        [{ filename := "c.txt", content := "hi" }, { filename := "img.png", content := "z" }]).2
        "demo").map (·.status) = some Status.FILES_UPDATED := by
  have h := claim_C9_upload_per_file wUEnv wTrainSt "demo"
    [{ filename := "c.txt", content := "hi" }, { filename := "img.png", content := "z" }]
    wTRec rfl
  obtain ⟨data, h1, h2, h3, _, _, h6⟩ := h
  have hdata : data
      = { uploaded := [uploaded_record_of wUEnv "demo"
                        { filename := "c.txt", content := "hi" }]
          errors := ["Unsupported file type: img.png"] } := by
    cases data with
    | mk up errs =>
      simp only at h2 h3
      rw [h2, h3]
      decide
  refine ⟨rfl, ?_, ?_⟩
  · rw [h1, hdata]
  · exact h6 ⟨{ filename := "c.txt", content := "hi" }, by decide, by decide⟩

/-- Witness for C10: the successful chat over the three-chunk index returns
a duplicate-free source list of length at most 3. -/
theorem claim_C10_witness :
    (chat wCEnv wReadySt "demo" "q").1.success = true
    ∧ (chat wCEnv wReadySt "demo" "q").1.sources.Nodup
    ∧ (chat wCEnv wReadySt "demo" "q").1.sources.length ≤ TOP_K := by
  have h := claim_C10_sources_nodup_bounded wCEnv wReadySt "demo" "q"
    (chat wCEnv wReadySt "demo" "q").1 (chat wCEnv wReadySt "demo" "q").2 rfl rfl
  exact ⟨rfl, h.1, h.2⟩

end MultiAppRAG
